import Mathlib

/-!
Verification of the paycoinpro-node SDK against its specification.

The development shallowly embeds the TypeScript sources:
* `src/lib/errors.ts` (second document): the `Webhooks` class using the direct
  HMAC-SHA512 scheme (scheme A) — `verify`, `verifySignature`,
  `generateSignature`, `secureCompare`.
* `src/resources/webhooks.ts`: the timestamped `Webhooks` class (scheme B) —
  `parseHeader`, `secureCompare` over hex-decoded buffers, `verify`, `sign`.
* `src/unnamed/part_002` (first document): `APIClient` — `buildURL`,
  `request` (retry loop), `makeRequest` (classification), `calculateBackoff`,
  `combineSignals`.
* `src/unnamed/part_001`: the error class hierarchy and
  `APIError.fromResponse`.

Platform primitives (Node's `createHmac`, `Math.random`, `fetch`, the system
clock) are modelled as explicit parameters; JavaScript strings are modelled as
Lean strings (`charCodeAt` as `Char.toNat`), JSON documents as an inductive
`Json` type with `JSON.stringify` / `JSON.parse` modelled by `stringifyJson` /
`parseJson` (integers only, usual escapes; enough for the payloads the claims
exercise).
-/

namespace PayCoinPro

/-- JSON documents, as manipulated by `JSON.parse` / `JSON.stringify`.
Numbers are restricted to integers (no claim depends on float payloads). -/
inductive Json where
  | null : Json
  | bool (b : Bool) : Json
  | num (n : Int) : Json
  | str (s : String) : Json
  | arr (elems : List Json) : Json
  | obj (fields : List (String × Json)) : Json

/-- Escaping of one character inside a JSON string literal, as
`JSON.stringify` performs it for the characters our model supports. -/
def escapeChar (c : Char) : List Char :=
  if c = '"' then ['\\', '"']
  else if c = '\\' then ['\\', '\\']
  else if c = '\n' then ['\\', 'n']
  else if c = '\t' then ['\\', 't']
  else if c = '\r' then ['\\', 'r']
  else [c]

/-- Escape a whole string for inclusion in JSON output. -/
def escapeString (s : String) : String :=
  ⟨s.data.flatMap escapeChar⟩

mutual

/-- Model of `JSON.stringify` (compact form, no added whitespace). -/
def stringifyJson : Json → String
  | .null => "null"
  | .bool true => "true"
  | .bool false => "false"
  | .num n => toString n
  | .str s => "\"" ++ escapeString s ++ "\""
  | .arr xs => "[" ++ stringifyList xs ++ "]"
  | .obj fs => "\x7b" ++ stringifyFields fs ++ "\x7d"

/-- Comma-separated serialization of array elements. -/
def stringifyList : List Json → String
  | [] => ""
  | [x] => stringifyJson x
  | x :: y :: xs => stringifyJson x ++ "," ++ stringifyList (y :: xs)

/-- Comma-separated serialization of the fields of an object. -/
def stringifyFields : List (String × Json) → String
  | [] => ""
  | [(k, v)] => "\"" ++ escapeString k ++ "\":" ++ stringifyJson v
  | (k, v) :: f :: fs =>
      "\"" ++ escapeString k ++ "\":" ++ stringifyJson v ++ "," ++
        stringifyFields (f :: fs)

end

/-- Skip JSON whitespace. -/
def skipWs : List Char → List Char
  | c :: cs => if c = ' ' ∨ c = '\n' ∨ c = '\t' ∨ c = '\r' then skipWs cs else c :: cs
  | [] => []

/-- Split a list of characters into its leading decimal digits and the rest. -/
def takeDigits : List Char → List Char × List Char
  | c :: cs =>
      if c.isDigit then
        let p := takeDigits cs
        (c :: p.1, p.2)
      else ([], c :: cs)
  | [] => ([], [])

/-- Interpret a digit list as a natural number. -/
def digitsToNat (ds : List Char) : Nat :=
  ds.foldl (fun a c => a * 10 + (c.toNat - 48)) 0

/-- Parse the body of a JSON string literal (after the opening quote),
returning the decoded string and the input after the closing quote.
`\\u` escapes are out of the model (the parser fails on them rather than
producing a wrong result). -/
def parseStringBody : Nat → List Char → Option (String × List Char)
  | 0, _ => none
  | _ + 1, [] => none
  | f + 1, c :: cs =>
      if c = '"' then some ("", cs)
      else if c = '\\' then
        match cs with
        | [] => none
        | e :: cs2 =>
            if e = 'u' then none
            else
              let dec : Char :=
                if e = 'n' then '\n' else if e = 't' then '\t'
                else if e = 'r' then '\r' else e
              (parseStringBody f cs2).map (fun p => (⟨dec :: p.1.data⟩, p.2))
      else (parseStringBody f cs).map (fun p => (⟨c :: p.1.data⟩, p.2))

mutual

/-- Fuelled model of `JSON.parse` on a character list: parse one value,
returning it with the unconsumed remainder. -/
def parseValue : Nat → List Char → Option (Json × List Char)
  | 0, _ => none
  | f + 1, cs0 =>
      match skipWs cs0 with
      | 'n' :: 'u' :: 'l' :: 'l' :: r => some (.null, r)
      | 't' :: 'r' :: 'u' :: 'e' :: r => some (.bool true, r)
      | 'f' :: 'a' :: 'l' :: 's' :: 'e' :: r => some (.bool false, r)
      | '"' :: r => (parseStringBody (f + 1) r).map (fun p => (.str p.1, p.2))
      | '-' :: r =>
          match takeDigits r with
          | ([], _) => none
          | (ds, r2) => some (.num (-(digitsToNat ds : Int)), r2)
      | '[' :: r =>
          (match skipWs r with
           | ']' :: r2 => some (.arr [], r2)
           | r2 => (parseArrTail f r2 []))
      | '\x7b' :: r =>
          (match skipWs r with
           | '\x7d' :: r2 => some (.obj [], r2)
           | r2 => (parseObjTail f r2 []))
      | c :: r =>
          if c.isDigit then
            match takeDigits (c :: r) with
            | (ds, r2) => some (.num (digitsToNat ds), r2)
          else none
      | [] => none

/-- Parse the elements of a non-empty JSON array (the part after `[`). -/
def parseArrTail : Nat → List Char → List Json → Option (Json × List Char)
  | 0, _, _ => none
  | f + 1, cs, acc =>
      match parseValue f cs with
      | none => none
      | some (v, r) =>
          match skipWs r with
          | ',' :: r2 => parseArrTail f r2 (acc ++ [v])
          | ']' :: r2 => some (.arr (acc ++ [v]), r2)
          | _ => none

/-- Parse the fields of a non-empty JSON object (the part after the brace). -/
def parseObjTail : Nat → List Char → List (String × Json) →
    Option (Json × List Char)
  | 0, _, _ => none
  | f + 1, cs, acc =>
      match skipWs cs with
      | '"' :: r =>
          match parseStringBody (f + 1) r with
          | none => none
          | some (k, r2) =>
              match skipWs r2 with
              | ':' :: r3 =>
                  match parseValue f r3 with
                  | none => none
                  | some (v, r4) =>
                      match skipWs r4 with
                      | ',' :: r5 => parseObjTail f r5 (acc ++ [(k, v)])
                      | '\x7d' :: r5 => some (.obj (acc ++ [(k, v)]), r5)
                      | _ => none
              | _ => none
      | _ => none

end

/-- Model of `JSON.parse`: the whole input must be one JSON value surrounded
only by whitespace. -/
def parseJson (s : String) : Option Json :=
  match parseValue (2 * s.length + 2) s.data with
  | some (v, rest) => if skipWs rest = [] then some v else none
  | none => none

/-- Property access `j?.f` on a decoded JSON document: defined only on
objects, first matching key. -/
def Json.getField : Json → String → Option Json
  | .obj fs, k => fs.lookup k
  | _, _ => none

/-! ## Webhook verifier, scheme A (`src/lib/errors.ts`, `Webhooks` class)

Direct HMAC-SHA512 over the payload, hex digest compared against the
header value.  `createHmac(alg, secret).update(m).digest('hex')` is a
platform primitive; it is modelled by an explicit parameter
`hmac : String → String → String` (secret, message ↦ hex digest). -/

/-- Errors a webhook `verify` call can surface.  `verificationError` models
the SDK's own `WebhookSignatureError` / `WebhookVerificationError`;
`jsError` models a raw JavaScript exception propagating uncaught (the SDK
model never produces it — that is one of the proved facts). -/
inductive WebhookErr where
  | verificationError (message : String) : WebhookErr
  | jsError (name message : String) : WebhookErr
deriving DecidableEq

/-- A `string | object` payload argument: `.inl` the raw string, `.inr` a
JavaScript object (an already-parsed JSON document). -/
def PayloadArg : Type := String ⊕ Json

/-- `Webhooks.generateSignature` from `src/lib/errors.ts`:
`createHmac('sha512', secret).update(payload).digest('hex')`. -/
def generateSignature (hmac : String → String → String)
    (payload secret : String) : String :=
  hmac secret payload

/-- `Webhooks.secureCompare` from `src/lib/errors.ts`: length check, then a
running bitwise-OR of per-position XOR differences (`charCodeAt` modelled by
`Char.toNat`), true iff the accumulator ends at zero. -/
def secureCompareA (a b : String) : Bool :=
  if a.length ≠ b.length then false
  else
    ((List.zipWith (fun x y => Nat.xor x.toNat y.toNat) a.data b.data).foldl
      Nat.lor 0) == 0

/-- `Webhooks.verifySignature` from `src/lib/errors.ts`: an empty (falsy)
signature or secret is rejected before any digest is computed; otherwise the
expected digest is recomputed and compared in constant time. -/
def verifySignatureA (hmac : String → String → String)
    (payload signature secret : String) : Bool :=
  if signature = "" ∨ secret = "" then false
  else secureCompareA (generateSignature hmac payload secret) signature

/-- The `payloadString` computed on entry to `Webhooks.verify`
(`src/lib/errors.ts` line 109): a string payload is used as-is, an object
payload is re-serialized with `JSON.stringify`. -/
def digestInputA : PayloadArg → String
  | .inl s => s
  | .inr o => stringifyJson o

/-- `Webhooks.verify` from `src/lib/errors.ts` lines 104-121: compute
`payloadString`, check the signature, only then parse (string payloads) or
pass through (object payloads); the `try/catch` around `JSON.parse` rethrows
as `WebhookSignatureError`. -/
def verifyA (hmac : String → String → String) (payload : PayloadArg)
    (signature secret : String) : Except WebhookErr Json :=
  if ¬ verifySignatureA hmac (digestInputA payload) signature secret then
    .error (.verificationError "Invalid webhook signature")
  else
    match payload with
    | .inl s =>
        match parseJson s with
        | some event => .ok event
        | none => .error (.verificationError "Failed to parse webhook payload")
    | .inr o => .ok o

/-! ## Webhook verifier, scheme B (`src/resources/webhooks.ts`)

Timestamped header `t=<unix_seconds>,v1=<hex digest>`, HMAC-SHA256 over
`"<timestamp>.<rawBody>"`, replay window, and a timing-safe compare over
hex-decoded buffers. -/

/-- Split a character list at every occurrence of the separator, modelling
`String.prototype.split` with a single-character separator. -/
def splitOnChar (sep : Char) : List Char → List (List Char)
  | [] => [[]]
  | c :: cs =>
      let r := splitOnChar sep cs
      if c = sep then [] :: r
      else (c :: r.headI) :: r.tail

/-- Leading-integer parse modelling `parseInt(v, 10)` collapsed through the
truthiness check that follows it in `parseHeader`: leading whitespace is
skipped, an optional sign is read, and the leading digit run is converted.
A parse failure (`NaN`) is represented as `0` — indistinguishable from a
parsed `0` through `if (!timestamp)`, which is the only consumer. -/
def parseIntJS (cs : List Char) : Int :=
  let cs := skipWs cs
  match cs with
  | '-' :: r =>
      match takeDigits r with
      | ([], _) => 0
      | (ds, _) => -(digitsToNat ds : Int)
  | '+' :: r =>
      match takeDigits r with
      | ([], _) => 0
      | (ds, _) => (digitsToNat ds : Int)
  | r =>
      match takeDigits r with
      | ([], _) => 0
      | (ds, _) => (digitsToNat ds : Int)

/-- One step of `parseHeader`'s loop over `header.split(',')`: a part sets
the timestamp when its key is `t` and the signature when its key is `v1`
(`const [key, value] = part.split('=')`). -/
def headerStep (st : Int × List Char) (part : List Char) : Int × List Char :=
  let kv := splitOnChar '=' part
  let key := kv.headI
  let value := (kv.tail).headI
  if key = ['t'] then (parseIntJS value, st.2)
  else if key = ['v', '1'] then (st.1, value)
  else st

/-- `Webhooks.parseHeader` from `src/resources/webhooks.ts`: fold the parts,
then reject a missing/zero timestamp or empty signature. -/
def parseHeaderB (header : String) :
    Except WebhookErr (Int × String) :=
  let st := (splitOnChar ',' header.data).foldl headerStep (0, [])
  if st.1 = 0 ∨ st.2 = [] then
    .error (.verificationError
      "Invalid signature header format. Expected: t=\x7btimestamp\x7d,v1=\x7bsignature\x7d")
  else .ok (st.1, ⟨st.2⟩)

/-- Value of one hexadecimal digit, if any. -/
def hexDigitVal (c : Char) : Option Nat :=
  if '0' ≤ c ∧ c ≤ '9' then some (c.toNat - 48)
  else if 'a' ≤ c ∧ c ≤ 'f' then some (c.toNat - 87)
  else if 'A' ≤ c ∧ c ≤ 'F' then some (c.toNat - 55)
  else none

/-- `Buffer.from(s, 'hex')`: decode hex-digit pairs into bytes, stopping at
the first character pair that is not valid hex. -/
def hexDecode : List Char → List Nat
  | c1 :: c2 :: rest =>
      match hexDigitVal c1, hexDigitVal c2 with
      | some h, some l => (16 * h + l) :: hexDecode rest
      | _, _ => []
  | _ => []

/-- `Webhooks.secureCompare` from `src/resources/webhooks.ts`: hex-decode
both strings, fail on a length mismatch, else `timingSafeEqual` (byte
equality). -/
def secureCompareB (a b : String) : Bool :=
  let bufA := hexDecode a.data
  let bufB := hexDecode b.data
  if bufA.length ≠ bufB.length then false
  else bufA == bufB

/-- Error message of the stale-timestamp rejection, with the age and
tolerance rendered as in the template literal. -/
def tooOldMsg (age tolerance : Int) : String :=
  "Webhook timestamp too old. Age: " ++ toString age ++ "s, Tolerance: " ++
    toString tolerance ++ "s"

/-- `Webhooks.verify` from `src/resources/webhooks.ts` lines 98-151.
`now` is `Math.floor(Date.now() / 1000)`; `hmac` models
`createHmac('sha256', secret)`. -/
def verifyB (hmac : String → String → String) (now : Int)
    (rawBody signatureHeader secret : String)
    (toleranceSeconds : Option Int) : Except WebhookErr Json :=
  if signatureHeader = "" then
    .error (.verificationError "Missing webhook signature header")
  else if secret = "" then
    .error (.verificationError "Missing webhook secret")
  else
    match parseHeaderB signatureHeader with
    | .error e => .error e
    | .ok (timestamp, signature) =>
        let tolerance := toleranceSeconds.getD 300
        let age := now - timestamp
        if age > tolerance then
          .error (.verificationError (tooOldMsg age tolerance))
        else if age < -tolerance then
          .error (.verificationError
            "Webhook timestamp is in the future. Check server clock.")
        else
          let signedPayload := toString timestamp ++ "." ++ rawBody
          let expected := hmac secret signedPayload
          if ¬ secureCompareB signature expected then
            .error (.verificationError "Invalid webhook signature")
          else
            match parseJson rawBody with
            | some event => .ok event
            | none =>
                .error (.verificationError "Invalid JSON in webhook body")

/-- `Webhooks.sign` from `src/resources/webhooks.ts` lines 161-167: the
test-side sibling of `verifyB`, producing `t=<ts>,v1=<digest>` over
`"<ts>.<JSON.stringify(payload)>"`. -/
def signB (hmac : String → String → String) (payload : Json)
    (secret : String) (ts : Int) : String :=
  let body := stringifyJson payload
  let signedPayload := toString ts ++ "." ++ body
  "t=" ++ toString ts ++ ",v1=" ++ hmac secret signedPayload

/-! ## Error taxonomy (`src/unnamed/part_001`) -/

/-- `fetch` response headers, as an association list (keys lowercase, as the
platform normalizes them); `headers.get` is the first-match lookup. -/
def HeaderList : Type := List (String × String)

/-- `headers.get(k)` (returns `null`, here `none`, when absent). -/
def hGet (hs : HeaderList) (k : String) : Option String :=
  hs.lookup k

/-- `parseInt(v, 10)` as an `Option`: `none` models `NaN`. -/
def parseIntJSOpt (cs : List Char) : Option Int :=
  let cs := skipWs cs
  match cs with
  | '-' :: r =>
      match takeDigits r with
      | ([], _) => none
      | (ds, _) => some (-(digitsToNat ds : Int))
  | '+' :: r =>
      match takeDigits r with
      | ([], _) => none
      | (ds, _) => some ((digitsToNat ds : Int))
  | r =>
      match takeDigits r with
      | ([], _) => none
      | (ds, _) => some ((digitsToNat ds : Int))

/-- The data carried by an `APIError` instance: the dynamic class name (the
tagged-union discriminant), message, HTTP status, machine code, optional
structured details, the request-correlation id taken from `x-request-id`,
and — on `RateLimitError` only — the parsed `retry-after` hint. -/
structure APIErrorData where
  name : String
  message : String
  status : Nat
  code : String
  details : Option Json
  requestId : Option String
  retryAfter : Option Int

/-- Field read `error?.f ?? dflt` on the decoded error body, followed by the
string coercion the `Error` constructor applies; a present non-string field
is rendered through `stringifyJson` as a stand-in for JavaScript's `String()`
(no claim exercises non-string `message`/`code` fields). -/
def jsFieldString (j : Option Json) (k : String) (dflt : String) : String :=
  match j >>= (Json.getField · k) with
  | some (.str s) => s
  | some .null => dflt
  | some other => stringifyJson other
  | none => dflt

/-- Shared constructor body of the `APIError` hierarchy. -/
def mkAPIError (name message : String) (status : Nat) (code : String)
    (headers : HeaderList) (details : Option Json) : APIErrorData :=
  { name := name, message := message, status := status, code := code,
    details := details, requestId := hGet headers "x-request-id",
    retryAfter := none }

/-- The `retryAfter` field computed by the `RateLimitError` constructor:
present only when the `retry-after` header is a non-empty (truthy) string;
an unparsable header (`NaN`) is modelled as absent, which is observationally
equal through the truthiness test in `calculateBackoff`, its only consumer. -/
def rateLimitRetryAfter (headers : HeaderList) : Option Int :=
  match hGet headers "retry-after" with
  | some s => if s = "" then none else parseIntJSOpt s.data
  | none => none

/-- `APIError.fromResponse` from `src/unnamed/part_001` lines 44-77: map the
status to the specific subclass. -/
def fromResponse (status : Nat) (headers : HeaderList) (err : Option Json) :
    APIErrorData :=
  let message := jsFieldString err "message"
    ("Request failed with status " ++ toString status)
  let code := jsFieldString err "code" "unknown_error"
  let details := err >>= (Json.getField · "details")
  if status = 400 then mkAPIError "BadRequestError" message 400 code headers details
  else if status = 401 then
    mkAPIError "AuthenticationError" message 401 code headers details
  else if status = 403 then
    mkAPIError "PermissionDeniedError" message 403 code headers details
  else if status = 404 then
    mkAPIError "NotFoundError" message 404 code headers details
  else if status = 409 then
    mkAPIError "ConflictError" message 409 code headers details
  else if status = 422 then
    mkAPIError "UnprocessableEntityError" message 422 code headers details
  else if status = 429 then
    { mkAPIError "RateLimitError" message 429 code headers details with
        retryAfter := rateLimitRetryAfter headers }
  else if status = 500 ∨ status = 502 ∨ status = 503 ∨ status = 504 then
    mkAPIError "InternalServerError" message status code headers details
  else mkAPIError "APIError" message status code headers details

/-- Errors the request pipeline can propagate.  `api`, `timeout` and
`connection` are the classified kinds; `raw` is an unclassified JavaScript
error rethrown by the final `throw error` of `makeRequest`'s catch block. -/
inductive PCError where
  | api (e : APIErrorData) : PCError
  | timeout (message : String) : PCError
  | connection (message : String) : PCError
  | raw (name message : String) : PCError

/-! ## Request executor (`src/unnamed/part_002`, first document) -/

/-- `s.includes(pat)` on JavaScript strings. -/
def hasSub (pat s : String) : Bool :=
  decide (pat.data <:+: s.data)

/-- The catch block of `makeRequest` (lines 223-241): an `AbortError`
becomes `TimeoutError`, an error message containing `fetch` or `network`
becomes `ConnectionError`, and anything else is rethrown unclassified. -/
def classifyThrown (timeoutMs : Nat) (name message : String) : PCError :=
  if name = "AbortError" then
    .timeout ("Request timed out after " ++ toString timeoutMs ++ "ms")
  else if hasSub "fetch" message ∨ hasSub "network" message then
    .connection message
  else .raw name message

/-- What `await response.json()` produced for one physical response:
the content type was not JSON (so `json()` was never called), a decoded
document, or a thrown parse error. -/
inductive JsonBody where
  | notJson : JsonBody
  | decoded (j : Json) : JsonBody
  | threw (name message : String) : JsonBody

/-- Behaviour of the injected `fetch` primitive on one attempt (when invoked
with a non-aborted signal): a response with status, headers and body
outcome, or a rejection. -/
inductive FetchOut where
  | resp (status : Nat) (headers : HeaderList) (body : JsonBody) : FetchOut
  | reject (name message : String) : FetchOut

/-- `data?.error` on the decoded body. -/
def errField (d : Option Json) : Option Json :=
  d >>= (Json.getField · "error")

/-- One attempt: `makeRequest` (lines 156-242).  `callerAborted` says the
caller-supplied signal had already fired when the attempt began; the combined
signal is then aborted on entry (`combineSignals`, lines 268-281), so `fetch`
rejects with `AbortError` without performing any network call, and the catch
block classifies that as a `TimeoutError`.  Otherwise the attempt's fate is
the injected `fetch`'s outcome `out`. -/
def makeRequestM (timeoutMs : Nat) (callerAborted : Bool) (out : FetchOut) :
    Except PCError (Option Json) :=
  if callerAborted then
    .error (.timeout ("Request timed out after " ++ toString timeoutMs ++ "ms"))
  else
    match out with
    | .reject name msg => .error (classifyThrown timeoutMs name msg)
    | .resp status headers body =>
        match body with
        | .threw name msg => .error (classifyThrown timeoutMs name msg)
        | _ =>
            let data : Option Json :=
              match body with
              | .decoded j => some j
              | _ => none
            if ¬ (200 ≤ status ∧ status ≤ 299) then
              .error (.api (fromResponse status headers (errField data)))
            else
              match data >>= (Json.getField · "data") with
              | some d => .ok (some d)
              | none => .ok data

/-- `calculateBackoff` (lines 247-263).  `rand` models the `Math.random()`
draw in `[0, 1)`.  The `retry-after` hint is used only when the caught error
is an `APIError` carrying a truthy `retryAfter` (so a hint of `0` falls
through to exponential backoff). -/
def calculateBackoff (attempt : Nat) (e : PCError) (rand : ℚ) : ℚ :=
  let baseDelay : ℚ := 1000
  let maxDelay : ℚ := 30000
  let exponentialDelay : ℚ := baseDelay * 2 ^ attempt
  let jitter : ℚ := rand * (3 / 10) * exponentialDelay
  let expo : ℚ := min (exponentialDelay + jitter) maxDelay
  match e with
  | .api a =>
      match a.retryAfter with
      | some ra => if ra ≠ 0 then min ((ra : ℚ) * 1000) maxDelay else expo
      | none => expo
  | _ => expo

/-- The terminal-error test of the retry loop (lines 130-135): an `APIError`
with a 4xx status other than 429 is surfaced immediately. -/
def isTerminal4xx : PCError → Bool
  | .api a => decide (400 ≤ a.status) && decide (a.status < 500) &&
      (a.status != 429)
  | _ => false

/-- Observable trace of one `request` call: the surfaced outcome, the number
of `fetch` invocations (`attempts`), the number of attempts that performed
network I/O (`physical` — an invocation whose combined signal was already
aborted rejects without reaching the network), and the backoff delays slept
in order. -/
structure RTrace where
  result : Except PCError (Option Json)
  attempts : Nat
  physical : Nat
  slept : List ℚ

/-- The retry loop of `request` (lines 115-151), unrolled from attempt index
`attempt` with `remaining` extra attempts of budget left.  `net k` is the
injected `fetch`'s behaviour on attempt `k`; `rand k` the `Math.random()`
draw before the sleep that follows attempt `k`. -/
def requestFrom (net : Nat → FetchOut) (rand : Nat → ℚ) (timeoutMs : Nat)
    (callerAborted : Bool) (attempt remaining : Nat) : RTrace :=
  let phys1 : Nat := if callerAborted then 0 else 1
  match makeRequestM timeoutMs callerAborted (net attempt) with
  | .ok v => ⟨.ok v, 1, phys1, []⟩
  | .error e =>
      if isTerminal4xx e then ⟨.error e, 1, phys1, []⟩
      else
        match remaining with
        | 0 => ⟨.error e, 1, phys1, []⟩
        | r + 1 =>
            let d := calculateBackoff attempt e (rand attempt)
            let t := requestFrom net rand timeoutMs callerAborted
              (attempt + 1) r
            ⟨t.result, t.attempts + 1, t.physical + phys1, d :: t.slept⟩

/-- `request` (lines 115-151): run the loop from attempt 0 with the
effective retry budget. -/
def requestM (net : Nat → FetchOut) (rand : Nat → ℚ) (timeoutMs : Nat)
    (callerAborted : Bool) (maxRetries : Nat) : RTrace :=
  requestFrom net rand timeoutMs callerAborted 0 maxRetries

/-! ## URL construction (`buildURL`, lines 90-110) -/

/-- The configured base endpoint, in parsed form: scheme, host, and path
segments (e.g. the default `https://paycoinpro.com/api/v1` has segments
`["api", "v1"]`). -/
structure BaseURL where
  scheme : String
  host : String
  pathSegs : List String

/-- Path segments of a path string (the SDK only passes plain multi-segment
paths such as `/invoices` or `invoices/inv_1`, never empty segments). -/
def splitSegs (p : String) : List String :=
  ((splitOnChar '/' p.data).map (fun cs => (⟨cs⟩ : String))).filter (· ≠ "")

/-- Whether the path is absolute (starts with `/`). -/
def startsWithSlash (p : String) : Bool :=
  match p.data with
  | '/' :: _ => true
  | _ => false

/-- Path of `new URL(path, base)` (WHATWG relative resolution, restricted to
the path-only references the SDK produces): an absolute path replaces the
base's entire path, a relative one replaces the base's last segment. -/
def resolveSegs (base : List String) (path : String) : List String :=
  if startsWithSlash path then splitSegs path
  else base.dropLast ++ splitSegs path

/-- A query-parameter value as `buildURL` discriminates it: `undefined`,
`null`, a `Date` (carried by its `toISOString()` rendering), an array
(elements already rendered by `String()`), or any other value rendered by
`String()`. -/
inductive QueryVal where
  | undef : QueryVal
  | nullV : QueryVal
  | date (iso : String) : QueryVal
  | list (items : List String) : QueryVal
  | scalar (s : String) : QueryVal

/-- `URLSearchParams.set`: replace the first occurrence of the key in place
and drop the others, or append when the key is new. -/
def ssetGo : List (String × String) → String → String → List (String × String)
  | [], k, v => [(k, v)]
  | (k0, v0) :: rest, k, v =>
      if k0 = k then (k, v) :: rest.filter (fun p => p.1 ≠ k)
      else (k0, v0) :: ssetGo rest k v

/-- The query-parameter list built by `buildURL`'s loop over
`Object.entries(params)` (insertion order). -/
def buildQuery (params : List (String × QueryVal)) : List (String × String) :=
  params.foldl (fun acc kv =>
    match kv.2 with
    | .undef => acc
    | .nullV => acc
    | .date iso => ssetGo acc kv.1 iso
    | .list items => items.foldl (fun a it => a ++ [(kv.1, it)]) acc
    | .scalar s => ssetGo acc kv.1 s) []

/-- Uppercase hex digit. -/
def hexDigitChar (n : Nat) : Char :=
  if n < 10 then Char.ofNat (48 + n) else Char.ofNat (55 + n)

/-- `application/x-www-form-urlencoded` serialization of one character
(ASCII model: space to `+`, unreserved characters kept, the rest
percent-encoded). -/
def formEncodeChar (c : Char) : List Char :=
  if c = ' ' then ['+']
  else if c.isAlphanum ∨ c = '-' ∨ c = '_' ∨ c = '.' ∨ c = '*' then [c]
  else ['%', hexDigitChar (c.toNat / 16 % 16), hexDigitChar (c.toNat % 16)]

/-- Form-urlencode a string. -/
def formEncode (s : String) : String :=
  ⟨s.data.flatMap formEncodeChar⟩

/-- Join strings with a separator. -/
def joinSep (sep : String) : List String → String
  | [] => ""
  | [x] => x
  | x :: y :: xs => x ++ sep ++ joinSep sep (y :: xs)

/-- Serialization of the search parameters. -/
def renderQuery (ps : List (String × String)) : String :=
  joinSep "&" (ps.map (fun kv => formEncode kv.1 ++ "=" ++ formEncode kv.2))

/-- `url.toString()` for the URLs this client builds. -/
def renderURL (scheme host : String) (segs : List String)
    (query : List (String × String)) : String :=
  scheme ++ "://" ++ host ++ "/" ++ joinSep "/" segs ++
    (if query.isEmpty then "" else "?" ++ renderQuery query)

/-- `buildURL` (lines 90-110): `new URL(path, baseURL)` then the
query-parameter loop. -/
def buildURL (base : BaseURL) (path : String)
    (params : List (String × QueryVal)) : String :=
  renderURL base.scheme base.host (resolveSegs base.pathSegs path)
    (buildQuery params)

/-- The default base endpoint `https://paycoinpro.com/api/v1`. -/
def defaultBaseURL : BaseURL :=
  { scheme := "https", host := "paycoinpro.com", pathSegs := ["api", "v1"] }

/-- The status table of spec §7, stated as the class-name discriminant each
row's kind corresponds to in the error hierarchy (bad-request ↦
`BadRequestError`, …, 500/502/503/504 internal ↦ `InternalServerError`,
other ↦ generic `APIError`).  This definition follows the spec's words; it
is compared against the code's `fromResponse`. -/
def specKindName (status : Nat) : String :=
  if status = 400 then "BadRequestError"
  else if status = 401 then "AuthenticationError"
  else if status = 403 then "PermissionDeniedError"
  else if status = 404 then "NotFoundError"
  else if status = 409 then "ConflictError"
  else if status = 422 then "UnprocessableEntityError"
  else if status = 429 then "RateLimitError"
  else if status = 500 ∨ status = 502 ∨ status = 503 ∨ status = 504 then
    "InternalServerError"
  else "APIError"

/-- The retryable error kinds named by the claim: HTTP 429, HTTP 5xx,
timeout, transport failure. -/
def retryableKind (e : PCError) : Prop :=
  (∃ a, e = .api a ∧ (a.status = 429 ∨ 500 ≤ a.status)) ∨
    (∃ m, e = .timeout m) ∨ (∃ m, e = .connection m)

/-- The retry-after hint `calculateBackoff` actually uses: present only on
an `APIError` whose `retryAfter` field is truthy (present and nonzero). -/
def usableHint : PCError → Option Int
  | .api a =>
      match a.retryAfter with
      | some h => if h ≠ 0 then some h else none
      | none => none
  | _ => none

/-- Per-parameter expansion the spec describes for query construction:
`null`/absent omitted, dates as their ISO string, arrays one entry per
element in order, scalars one entry. -/
def expandQuery (kv : String × QueryVal) : List (String × String) :=
  match kv.2 with
  | .undef => []
  | .nullV => []
  | .date iso => [(kv.1, iso)]
  | .list items => items.map (fun it => (kv.1, it))
  | .scalar s => [(kv.1, s)]

/-! ## Helper lemmas -/

theorem lor_eq_zero_iff (a b : Nat) : a ||| b = 0 ↔ a = 0 ∧ b = 0 := by
  constructor
  · intro h
    constructor
    · apply Nat.eq_of_testBit_eq
      intro i
      have hb := congrArg (fun n => Nat.testBit n i) h
      simp only [Nat.testBit_lor] at hb
      rcases Bool.or_eq_false_iff.mp (by simpa using hb) with ⟨h1, _⟩
      simp [h1]
    · apply Nat.eq_of_testBit_eq
      intro i
      have hb := congrArg (fun n => Nat.testBit n i) h
      simp only [Nat.testBit_lor] at hb
      rcases Bool.or_eq_false_iff.mp (by simpa using hb) with ⟨_, h2⟩
      simp [h2]
  · rintro ⟨rfl, rfl⟩
    rfl

theorem foldl_lor_eq_zero (l : List Nat) (acc : Nat) :
    l.foldl Nat.lor acc = 0 ↔ acc = 0 ∧ ∀ x ∈ l, x = 0 := by
  induction l generalizing acc with
  | nil => simp
  | cons a t ih =>
      simp only [List.foldl_cons, ih, List.mem_cons]
      rw [show Nat.lor acc a = acc ||| a from rfl, lor_eq_zero_iff]
      constructor
      · rintro ⟨⟨h1, h2⟩, h3⟩
        exact ⟨h1, fun x hx => hx.elim (fun hh => hh ▸ h2) (h3 x)⟩
      · rintro ⟨h1, h2⟩
        exact ⟨⟨h1, h2 a (Or.inl rfl)⟩, fun x hx => h2 x (Or.inr hx)⟩

theorem char_toNat_inj {a b : Char} (h : a.toNat = b.toNat) : a = b := by
  have hv : a.val = b.val := by
    unfold Char.toNat at h
    exact UInt32.toNat.inj h
  exact Char.eq_of_val_eq hv

theorem zip_xor_chars (l1 l2 : List Char) (h : l1.length = l2.length) :
    (∀ x ∈ List.zipWith (fun x y => Nat.xor x.toNat y.toNat) l1 l2, x = 0) ↔
      l1 = l2 := by
  induction l1 generalizing l2 with
  | nil =>
      cases l2 with
      | nil => simp
      | cons d t2 => simp at h
  | cons c t ih =>
      cases l2 with
      | nil => simp at h
      | cons d t2 =>
          simp only [List.length_cons, Nat.succ_inj] at h
          simp only [List.zipWith_cons_cons, List.mem_cons, List.cons.injEq]
          constructor
          · intro hall
            have hc : Nat.xor c.toNat d.toNat = 0 := hall _ (Or.inl rfl)
            have hcd : c = d := char_toNat_inj (Nat.xor_eq_zero.mp hc)
            exact ⟨hcd, (ih t2 h).mp (fun x hx => hall x (Or.inr hx))⟩
          · rintro ⟨rfl, rfl⟩
            intro x hx
            rcases hx with hx | hx
            · rw [hx]
              exact Nat.xor_eq_zero.mpr rfl
            · exact ((ih t h).mpr rfl) x hx

theorem string_ext {a b : String} (h : a.data = b.data) : a = b := by
  cases a
  cases b
  simp_all

/-- The constant-time comparison decides exactly string equality. -/
theorem secureCompareA_eq_true_iff (a b : String) :
    secureCompareA a b = true ↔ a = b := by
  unfold secureCompareA
  by_cases h : a.length = b.length
  · rw [if_neg (by simp [h] : ¬ a.length ≠ b.length), beq_iff_eq,
      foldl_lor_eq_zero]
    have hlen : a.data.length = b.data.length := h
    constructor
    · rintro ⟨_, hz⟩
      exact string_ext ((zip_xor_chars a.data b.data hlen).mp hz)
    · rintro rfl
      exact ⟨rfl, (zip_xor_chars a.data a.data rfl).mpr rfl⟩
  · rw [if_pos (by simpa using h)]
    constructor
    · intro hf
      exact absurd hf (by simp)
    · rintro rfl
      exact absurd rfl h

/-! ## Claim C6 -/

/-- C6: the signature comparison of `src/lib/errors.ts`: (1) inputs of
unequal length fail with `false` whatever their contents; (2) for
equal-length inputs the bitwise-OR-of-XOR fold decides exactly equality (no
outcome other than equality makes it succeed); (3)/(4) an empty supplied
signature or an empty shared secret is rejected by `verifySignature`
independently of the digest function — i.e. without any digest being
computed or compared; (5) any two signatures that fail the comparison
produce the very same failure from `verify`, so a length mismatch and a
content mismatch are indistinguishable in failure kind to the caller. -/
theorem c6_secure_compare :
    (∀ a b : String, a.length ≠ b.length → secureCompareA a b = false) ∧
    (∀ a b : String, secureCompareA a b = true ↔ a = b) ∧
    (∀ (hmac : String → String → String) (payload secret : String),
        verifySignatureA hmac payload "" secret = false) ∧
    (∀ (hmac : String → String → String) (payload signature : String),
        verifySignatureA hmac payload signature "" = false) ∧
    (∀ (hmac : String → String → String) (p : PayloadArg)
        (s1 s2 secret : String),
        verifySignatureA hmac (digestInputA p) s1 secret = false →
        verifySignatureA hmac (digestInputA p) s2 secret = false →
        verifyA hmac p s1 secret = verifyA hmac p s2 secret) := by
  refine ⟨?_, secureCompareA_eq_true_iff, ?_, ?_, ?_⟩
  · intro a b h
    unfold secureCompareA
    rw [if_pos h]
  · intro hmac payload secret
    unfold verifySignatureA
    rw [if_pos (Or.inl rfl)]
  · intro hmac payload signature
    unfold verifySignatureA
    rw [if_pos (Or.inr rfl)]
  · intro hmac p s1 s2 secret h1 h2
    unfold verifyA
    rw [h1, h2]

/-- Witness for C6 at concrete inputs: a one-character length mismatch, an
equal pair, an equal-length content mismatch, empty signature, empty secret,
and the indistinguishability of a length-mismatch failure from a
content-mismatch failure. -/
theorem c6_secure_compare_witness :
    secureCompareA "ab" "abc" = false ∧
    (secureCompareA "ab" "ab" = true ↔ ("ab" : String) = "ab") ∧
    verifySignatureA (fun _ m => m) "p" "" "k" = false ∧
    verifySignatureA (fun _ m => m) "p" "x" "" = false ∧
    verifyA (fun _ m => m) (Sum.inl "p") "x" "k" =
      verifyA (fun _ m => m) (Sum.inl "p") "yz" "k" :=
  ⟨c6_secure_compare.1 "ab" "abc" (by decide),
   c6_secure_compare.2.1 "ab" "ab",
   c6_secure_compare.2.2.1 (fun _ m => m) "p" "k",
   c6_secure_compare.2.2.2.1 (fun _ m => m) "p" "x",
   c6_secure_compare.2.2.2.2 (fun _ m => m) (Sum.inl "p") "x" "yz" "k"
     (by decide) (by decide)⟩

/-! ## Claim C3 -/

/-- C3 counterexample: the untrusted input *is* re-serialized before
verification on the `object` branch of `verify` (`src/lib/errors.ts` line
109).  With the digest function instantiated to a stand-in, the raw byte
sequence `{"a": 1}` (with an interior space) parses to the object
`{a: 1}`, and the signature computed over those exact raw bytes verifies
when the raw string is supplied — but is rejected when the parsed object is
supplied, because `verify` re-serializes the object to the different byte
sequence `{"a":1}` and computes the digest over that instead of over the
bytes as received.  So the digest is not always computed over the payload
byte sequence as supplied, refuting the claim. -/
theorem c3_counterexample :
    parseJson "\x7b\"a\": 1\x7d" = some (Json.obj [("a", Json.num 1)]) ∧
    digestInputA (Sum.inr (Json.obj [("a", Json.num 1)])) ≠ "\x7b\"a\": 1\x7d" ∧
    verifyA (fun _ m => m) (Sum.inl "\x7b\"a\": 1\x7d")
        ((fun (_ m : String) => m) "whsec" "\x7b\"a\": 1\x7d") "whsec" =
      .ok (Json.obj [("a", Json.num 1)]) ∧
    verifyA (fun _ m => m) (Sum.inr (Json.obj [("a", Json.num 1)]))
        ((fun (_ m : String) => m) "whsec" "\x7b\"a\": 1\x7d") "whsec" =
      .error (.verificationError "Invalid webhook signature") :=
  ⟨rfl, by decide, rfl, rfl⟩

/-- C3 amended: string payloads are digested over the exact byte sequence
supplied, while object payloads are re-serialized with `JSON.stringify`
before verification; JSON parsing is reached only after the signature
comparison succeeded (a failed comparison yields the signature error
independently of whether the payload parses, and the parse-failure error can
only arise under a successful comparison); and no event is ever returned
unless the comparison succeeded. -/
theorem c3_amended (hmac : String → String → String) (p : PayloadArg)
    (sig secret : String) :
    (∀ s, p = Sum.inl s → digestInputA p = s) ∧
    (∀ o, p = Sum.inr o → digestInputA p = stringifyJson o) ∧
    (∀ e, verifyA hmac p sig secret = .ok e →
        verifySignatureA hmac (digestInputA p) sig secret = true) ∧
    (verifySignatureA hmac (digestInputA p) sig secret = false →
        verifyA hmac p sig secret =
          .error (.verificationError "Invalid webhook signature")) ∧
    (verifyA hmac p sig secret =
        .error (.verificationError "Failed to parse webhook payload") →
      verifySignatureA hmac (digestInputA p) sig secret = true) := by
  refine ⟨?_, ?_, ?_, ?_, ?_⟩
  · rintro s rfl
    rfl
  · rintro o rfl
    rfl
  · intro e h
    by_contra hfail
    rw [Bool.not_eq_true] at hfail
    unfold verifyA at h
    rw [hfail] at h
    simp at h
  · intro hfail
    unfold verifyA
    rw [hfail]
    rfl
  · intro h
    by_contra hfail
    rw [Bool.not_eq_true] at hfail
    unfold verifyA at h
    rw [hfail] at h
    simp at h

/-- Witness for C3 amended at concrete inputs, exercising the string
branch (exact bytes digested), the object branch (stringified), the parse
error arising only under a successful comparison, and the failure path. -/
theorem c3_amended_witness :
    digestInputA (Sum.inl "\x7b\"a\": 1\x7d") = "\x7b\"a\": 1\x7d" ∧
    digestInputA (Sum.inr (Json.obj [("a", Json.num 1)])) =
      stringifyJson (Json.obj [("a", Json.num 1)]) ∧
    verifySignatureA (fun _ m => m) (digestInputA (Sum.inl "oops")) "oops" "k" =
      true ∧
    verifyA (fun _ m => m) (Sum.inl "p") "wrong" "k" =
      .error (.verificationError "Invalid webhook signature") :=
  ⟨(c3_amended (fun _ m => m) (Sum.inl "\x7b\"a\": 1\x7d") "x" "k").1 _ rfl,
   (c3_amended (fun _ m => m) (Sum.inr (Json.obj [("a", Json.num 1)])) "x"
      "k").2.1 _ rfl,
   (c3_amended (fun _ m => m) (Sum.inl "oops") "oops" "k").2.2.2.2 rfl,
   (c3_amended (fun _ m => m) (Sum.inl "p") "wrong" "k").2.2.2.1 (by decide)⟩

/-! ## Claim C10 -/

/-- C10: both verifiers confine every failure to their own
verification-error type.  (1)/(2): no result of `verify` is ever a raw
JavaScript error (each verifier's catch-all around `JSON.parse` rethrows as
its verification-error type).  (3): in scheme A, a successful comparison
over a payload string that is not valid JSON yields the parse-failure
message carried by the same `WebhookSignatureError` type used for signature
failures.  (4): likewise in scheme B with `WebhookVerificationError`. -/
theorem c10_parse_error_classified :
    (∀ (hmac : String → String → String) (p : PayloadArg) (sig secret : String)
        (e : WebhookErr), verifyA hmac p sig secret = .error e →
        ∃ m, e = .verificationError m) ∧
    (∀ (hmac : String → String → String) (now : Int)
        (rawBody header secret : String) (tol : Option Int) (e : WebhookErr),
        verifyB hmac now rawBody header secret tol = .error e →
        ∃ m, e = .verificationError m) ∧
    (∀ (hmac : String → String → String) (s sig secret : String),
        verifySignatureA hmac s sig secret = true →
        parseJson s = none →
        verifyA hmac (Sum.inl s) sig secret =
          .error (.verificationError "Failed to parse webhook payload")) ∧
    (∀ (hmac : String → String → String) (now : Int)
        (rawBody header secret : String) (tol : Option Int) (ts : Int)
        (sig : String),
        header ≠ "" → secret ≠ "" →
        parseHeaderB header = .ok (ts, sig) →
        ¬ (now - ts > tol.getD 300) → ¬ (now - ts < -(tol.getD 300)) →
        secureCompareB sig
          (hmac secret (toString ts ++ "." ++ rawBody)) = true →
        parseJson rawBody = none →
        verifyB hmac now rawBody header secret tol =
          .error (.verificationError "Invalid JSON in webhook body")) := by
  refine ⟨?_, ?_, ?_, ?_⟩
  · intro hmac p sig secret e h
    unfold verifyA at h
    split at h
    · exact ⟨_, (Except.error.inj h).symm⟩
    · split at h
      · split at h
        · exact absurd h (by simp)
        · exact ⟨_, (Except.error.inj h).symm⟩
      · exact absurd h (by simp)
  · intro hmac now rawBody header secret tol e h
    unfold verifyB at h
    split at h
    · exact ⟨_, (Except.error.inj h).symm⟩
    · split at h
      · exact ⟨_, (Except.error.inj h).symm⟩
      · split at h
        · rename_i e0 heq
          obtain rfl : e0 = e := Except.error.inj h
          simp only [parseHeaderB] at heq
          split at heq
          · exact ⟨_, (Except.error.inj heq).symm⟩
          · cases heq
        · dsimp only at h
          split at h
          · exact ⟨_, (Except.error.inj h).symm⟩
          · split at h
            · exact ⟨_, (Except.error.inj h).symm⟩
            · split at h
              · exact ⟨_, (Except.error.inj h).symm⟩
              · split at h
                · exact absurd h (by simp)
                · exact ⟨_, (Except.error.inj h).symm⟩
  · intro hmac s sig secret hok hparse
    unfold verifyA
    rw [show digestInputA (Sum.inl s) = s from rfl, hok]
    simp [hparse]
  · intro hmac now rawBody header secret tol ts sig hh hs hph hold hfut hcmp
      hparse
    unfold verifyB
    rw [if_neg hh, if_neg hs, hph]
    simp only [if_neg hold, if_neg hfut, hcmp, Bool.not_true,
      Bool.false_eq_true, if_false, hparse]
    rfl

/-- Witness for C10 at concrete inputs: a failing scheme-A call and a
failing scheme-B call are both verification errors, and an unparsable body
with a passing comparison yields the parse-failure verification error in
both schemes. -/
theorem c10_parse_error_classified_witness :
    (∃ m, (WebhookErr.verificationError "Invalid webhook signature") =
        .verificationError m) ∧
    (∃ m, (WebhookErr.verificationError "Missing webhook secret") =
        .verificationError m) ∧
    verifyA (fun _ m => m) (Sum.inl "oops") "oops" "k" =
      .error (.verificationError "Failed to parse webhook payload") ∧
    verifyB (fun _ m => m) 5 "oops" "t=5,v1=5.oops" "k" none =
      .error (.verificationError "Invalid JSON in webhook body") :=
  ⟨c10_parse_error_classified.1 (fun _ m => m) (Sum.inl "p") "wrong" "k" _ rfl,
   c10_parse_error_classified.2.1 (fun _ m => m) 0 "b" "t=1,v1=x" "" none _ rfl,
   c10_parse_error_classified.2.2.1 (fun _ m => m) "oops" "oops" "k"
     (by decide) rfl,
   c10_parse_error_classified.2.2.2 (fun _ m => m) 5 "oops" "t=5,v1=5.oops"
     "k" none 5 "5.oops" (by decide) (by decide) rfl (by decide)
     (by decide) (by decide) rfl⟩

/-! ## Claim C5 -/

/-- C5: in the timestamped scheme, a header whose parsed timestamp is more
than the tolerance window (default 300 s) in the past, or more than the
window in the future, is rejected with the corresponding timestamp error.
The conclusion holds for *every* digest function `hmac`, every raw body and
every secret content: the rejection is independent of the digest, which is
the extensional rendering of "rejected before the digest is computed or
compared".  In particular a content-valid signature timestamped
`tolerance + 1` seconds away is rejected this way (see the witness). -/
theorem c5_stale_rejected (hmac : String → String → String) (now : Int)
    (rawBody header secret : String) (tol : Option Int) (ts : Int)
    (sig : String) (hheader : header ≠ "") (hsecret : secret ≠ "")
    (htol : 0 ≤ tol.getD 300)
    (hparse : parseHeaderB header = .ok (ts, sig)) :
    (now - ts > tol.getD 300 →
      verifyB hmac now rawBody header secret tol =
        .error (.verificationError (tooOldMsg (now - ts) (tol.getD 300)))) ∧
    (now - ts < -(tol.getD 300) →
      verifyB hmac now rawBody header secret tol =
        .error (.verificationError
          "Webhook timestamp is in the future. Check server clock.")) := by
  constructor
  · intro hage
    unfold verifyB
    rw [if_neg hheader, if_neg hsecret, hparse]
    dsimp only
    rw [if_pos hage]
  · intro hage
    unfold verifyB
    rw [if_neg hheader, if_neg hsecret, hparse]
    dsimp only
    rw [if_neg (by omega), if_pos hage]

/-- Witness for C5: with the default tolerance of 300 s, a header whose
signature content would verify (the digest stand-in makes it content-valid)
but whose timestamp is 301 s in the past is rejected as too old, and one
301 s in the future is rejected by the clock-skew guard. -/
theorem c5_stale_rejected_witness :
    verifyB (fun _ m => m) 1301 "\x7b\x7d" "t=1000,v1=1000.\x7b\x7d" "k" none =
      .error (.verificationError (tooOldMsg 301 300)) ∧
    verifyB (fun _ m => m) 699 "\x7b\x7d" "t=1000,v1=1000.\x7b\x7d" "k" none =
      .error (.verificationError
        "Webhook timestamp is in the future. Check server clock.") :=
  ⟨(c5_stale_rejected (fun _ m => m) 1301 "\x7b\x7d" "t=1000,v1=1000.\x7b\x7d"
      "k" none 1000 "1000.\x7b\x7d" (by decide) (by decide) (by decide)
      rfl).1 (by decide),
   (c5_stale_rejected (fun _ m => m) 699 "\x7b\x7d" "t=1000,v1=1000.\x7b\x7d"
      "k" none 1000 "1000.\x7b\x7d" (by decide) (by decide) (by decide)
      rfl).2 (by decide)⟩

/-! ## Claim C4 -/

theorem splitOnChar_not_mem (sep : Char) (l : List Char) (h : sep ∉ l) :
    splitOnChar sep l = [l] := by
  induction l with
  | nil => rfl
  | cons c cs ih =>
      have hc : c ≠ sep := fun hh => h (hh ▸ List.mem_cons_self c cs)
      have hcs : sep ∉ cs := fun hh => h (List.mem_cons_of_mem c hh)
      simp only [splitOnChar, ih hcs, if_neg hc]
      rfl

theorem splitOnChar_append (sep : Char) (l1 l2 : List Char) (h : sep ∉ l1) :
    splitOnChar sep (l1 ++ sep :: l2) = l1 :: splitOnChar sep l2 := by
  induction l1 with
  | nil =>
      rw [List.nil_append]
      simp [splitOnChar]
  | cons c cs ih =>
      have hc : c ≠ sep := fun hh => h (hh ▸ List.mem_cons_self c cs)
      have hcs : sep ∉ cs := fun hh => h (List.mem_cons_of_mem c hh)
      rw [List.cons_append]
      simp only [splitOnChar, ih hcs, if_neg hc]
      rfl

theorem string_data_ne_nil {s : String} (h : s ≠ "") : s.data ≠ [] := by
  intro hd
  exact h (string_ext (by simpa using hd))

/-- The character list of a `signB` header. -/
theorem signB_data (hmac : String → String → String) (p : Json)
    (secret : String) (ts : Int) :
    (signB hmac p secret ts).data =
      't' :: '=' :: ((toString ts).data ++ ',' :: 'v' :: '1' :: '=' ::
        (hmac secret (toString ts ++ "." ++ stringifyJson p)).data) := by
  unfold signB
  dsimp only
  rw [show ("t=" ++ toString ts ++ ",v1=" ++
      hmac secret (toString ts ++ "." ++ stringifyJson p)).data =
      "t=".data ++ (toString ts).data ++ ",v1=".data ++
        (hmac secret (toString ts ++ "." ++ stringifyJson p)).data by
    simp [String.data_append]]
  simp

/-- Parsing the header produced by `signB` recovers the timestamp and
digest, provided the digest contains no separator characters (true of hex
digests) and the timestamp is truthy. -/
theorem parseHeaderB_signB (hmac : String → String → String) (p : Json)
    (secret : String) (ts : Int) (hts : ts ≠ 0)
    (hparseInt : parseIntJS (toString ts).data = ts)
    (htsC : ',' ∉ (toString ts).data) (htsE : '=' ∉ (toString ts).data)
    (hsigNe : hmac secret (toString ts ++ "." ++ stringifyJson p) ≠ "")
    (hsigC : ',' ∉ (hmac secret (toString ts ++ "." ++ stringifyJson p)).data)
    (hsigE : '=' ∉ (hmac secret (toString ts ++ "." ++ stringifyJson p)).data) :
    parseHeaderB (signB hmac p secret ts) =
      .ok (ts, hmac secret (toString ts ++ "." ++ stringifyJson p)) := by
  set sig := hmac secret (toString ts ++ "." ++ stringifyJson p) with hsig
  have hsplit1 : splitOnChar ',' (signB hmac p secret ts).data =
      ('t' :: '=' :: (toString ts).data) ::
        splitOnChar ',' ('v' :: '1' :: '=' :: sig.data) := by
    rw [signB_data]
    have heq : 't' :: '=' :: ((toString ts).data ++ ',' :: 'v' :: '1' ::
        '=' :: sig.data) = ('t' :: '=' :: (toString ts).data) ++ ',' ::
        ('v' :: '1' :: '=' :: sig.data) := by simp
    rw [heq, splitOnChar_append]
    simp only [List.mem_cons]
    push_neg
    exact ⟨by decide, by decide, htsC⟩
  have hsplit2 : splitOnChar ',' ('v' :: '1' :: '=' :: sig.data) =
      [('v' :: '1' :: '=' :: sig.data)] := by
    apply splitOnChar_not_mem
    simp only [List.mem_cons]
    push_neg
    exact ⟨by decide, by decide, by decide, hsigC⟩
  have hkv1 : splitOnChar '=' ('t' :: '=' :: (toString ts).data) =
      ['t'] :: [(toString ts).data] := by
    have heq : 't' :: '=' :: (toString ts).data =
        ['t'] ++ '=' :: (toString ts).data := rfl
    rw [heq, splitOnChar_append _ _ _ (by
        simp only [List.mem_cons]
        push_neg
        exact ⟨by decide, by decide⟩),
      splitOnChar_not_mem _ _ htsE]
  have hkv2 : splitOnChar '=' ('v' :: '1' :: '=' :: sig.data) =
      ['v', '1'] :: [sig.data] := by
    have heq : 'v' :: '1' :: '=' :: sig.data =
        ['v', '1'] ++ '=' :: sig.data := rfl
    rw [heq, splitOnChar_append _ _ _ (by
        simp only [List.mem_cons]
        push_neg
        exact ⟨by decide, by decide, by decide⟩),
      splitOnChar_not_mem _ _ hsigE]
  have hstep1 : headerStep (0, []) ('t' :: '=' :: (toString ts).data) =
      (ts, []) := by
    unfold headerStep
    rw [hkv1]
    dsimp only [List.headI, List.tail]
    rw [if_pos rfl]
    rw [hparseInt]
  have hstep2 : headerStep (ts, []) ('v' :: '1' :: '=' :: sig.data) =
      (ts, sig.data) := by
    unfold headerStep
    rw [hkv2]
    dsimp only [List.headI, List.tail]
    rw [if_neg (by decide), if_pos rfl]
  unfold parseHeaderB
  rw [hsplit1, hsplit2]
  dsimp only [List.foldl_cons, List.foldl_nil]
  rw [hstep1, hstep2]
  rw [if_neg (by
    push_neg
    exact ⟨hts, string_data_ne_nil hsigNe⟩)]

theorem secureCompareB_self (a : String) : secureCompareB a a = true := by
  unfold secureCompareB
  simp

/-- C4 counterexample: the round-trip fails as universally stated.  With the
non-empty secret `k` and the payload string `oops` (not valid JSON), signing
with `generateSignature` and verifying the very same payload with the
produced signature and the same secret does *not* succeed: `verify` throws
the parse-failure error after the signature comparison passes. -/
theorem c4_counterexample :
    ("k" : String) ≠ "" ∧
    verifyA (fun _ m => m) (Sum.inl "oops")
        (generateSignature (fun _ m => m) "oops" "k") "k" =
      .error (.verificationError "Failed to parse webhook payload") :=
  ⟨by decide, rfl⟩

/-- C4 amended: the round trip holds for payloads in the verifier's domain.
(1) Scheme A on a string payload that parses as JSON returns exactly the
parsed event; (2) scheme A on an object payload returns the very object;
(3) scheme B (`sign` then `verify`) returns the parsed payload, given a
truthy timestamp within tolerance and a digest free of the header's
separator characters (true of hex digests).  In each case sign and verify
use the same digest construction, so the comparison succeeds. -/
theorem c4_roundtrip :
    (∀ (hmac : String → String → String) (payload secret : String) (o : Json),
        secret ≠ "" → hmac secret payload ≠ "" →
        parseJson payload = some o →
        verifyA hmac (Sum.inl payload)
          (generateSignature hmac payload secret) secret = .ok o) ∧
    (∀ (hmac : String → String → String) (o : Json) (secret : String),
        secret ≠ "" → hmac secret (stringifyJson o) ≠ "" →
        verifyA hmac (Sum.inr o)
          (generateSignature hmac (stringifyJson o) secret) secret = .ok o) ∧
    (∀ (hmac : String → String → String) (p : Json) (secret : String)
        (ts now : Int) (tol : Option Int),
        secret ≠ "" → ts ≠ 0 →
        parseIntJS (toString ts).data = ts →
        ',' ∉ (toString ts).data → '=' ∉ (toString ts).data →
        hmac secret (toString ts ++ "." ++ stringifyJson p) ≠ "" →
        ',' ∉ (hmac secret (toString ts ++ "." ++ stringifyJson p)).data →
        '=' ∉ (hmac secret (toString ts ++ "." ++ stringifyJson p)).data →
        ¬ (now - ts > tol.getD 300) → ¬ (now - ts < -(tol.getD 300)) →
        parseJson (stringifyJson p) = some p →
        verifyB hmac now (stringifyJson p) (signB hmac p secret ts) secret
          tol = .ok p) := by
  refine ⟨?_, ?_, ?_⟩
  · intro hmac payload secret o hsec hsig hparse
    have hv : verifySignatureA hmac payload
        (generateSignature hmac payload secret) secret = true := by
      unfold verifySignatureA
      rw [if_neg (by push_neg; exact ⟨hsig, hsec⟩)]
      exact (secureCompareA_eq_true_iff _ _).mpr rfl
    unfold verifyA
    rw [show digestInputA (Sum.inl payload) = payload from rfl, hv]
    simp [hparse]
  · intro hmac o secret hsec hsig
    have hv : verifySignatureA hmac (stringifyJson o)
        (generateSignature hmac (stringifyJson o) secret) secret = true := by
      unfold verifySignatureA
      rw [if_neg (by push_neg; exact ⟨hsig, hsec⟩)]
      exact (secureCompareA_eq_true_iff _ _).mpr rfl
    unfold verifyA
    rw [show digestInputA (Sum.inr o) = stringifyJson o from rfl, hv]
    simp
  · intro hmac p secret ts now tol hsec hts hparseInt htsC htsE hsigNe hsigC
      hsigE hold hfut hroundtrip
    have hheader : signB hmac p secret ts ≠ "" := by
      intro hh
      have := congrArg String.data hh
      rw [signB_data] at this
      cases this
    unfold verifyB
    rw [if_neg hheader, if_neg hsec,
      parseHeaderB_signB hmac p secret ts hts hparseInt htsC htsE hsigNe
        hsigC hsigE]
    dsimp only
    rw [if_neg hold, if_neg hfut, if_neg (by
      rw [secureCompareB_self]
      simp), hroundtrip]

/-- Witness for C4 amended at concrete inputs: the digest stand-in
`secret ++ message` produces comma- and equals-free signatures for the
payload `\x7b"a":1\x7d`; all three round trips return the original event. -/
theorem c4_roundtrip_witness :
    verifyA (fun s m => s ++ m) (Sum.inl "\x7b\"a\":1\x7d")
        (generateSignature (fun s m => s ++ m) "\x7b\"a\":1\x7d" "k") "k" =
      .ok (Json.obj [("a", Json.num 1)]) ∧
    verifyA (fun s m => s ++ m) (Sum.inr (Json.obj [("a", Json.num 1)]))
        (generateSignature (fun s m => s ++ m)
          (stringifyJson (Json.obj [("a", Json.num 1)])) "k") "k" =
      .ok (Json.obj [("a", Json.num 1)]) ∧
    verifyB (fun s m => s ++ m) 5 (stringifyJson (Json.obj [("a", Json.num 1)]))
        (signB (fun s m => s ++ m) (Json.obj [("a", Json.num 1)]) "k" 5) "k"
        none = .ok (Json.obj [("a", Json.num 1)]) :=
  ⟨c4_roundtrip.1 (fun s m => s ++ m) "\x7b\"a\":1\x7d" "k"
     (Json.obj [("a", Json.num 1)]) (by decide) (by decide) rfl,
   c4_roundtrip.2.1 (fun s m => s ++ m) (Json.obj [("a", Json.num 1)]) "k"
     (by decide) (by decide),
   c4_roundtrip.2.2 (fun s m => s ++ m) (Json.obj [("a", Json.num 1)]) "k"
     5 5 none (by decide) (by decide) (by decide) (by decide) (by decide)
     (by decide) (by decide) (by decide) (by decide) (by decide) rfl⟩

/-! ## Request-loop unfolding lemmas -/

theorem fromResponse_name (status : Nat) (headers : HeaderList)
    (err : Option Json) :
    (fromResponse status headers err).name = specKindName status := by
  unfold fromResponse specKindName
  split_ifs <;> rfl

theorem fromResponse_status (status : Nat) (headers : HeaderList)
    (err : Option Json) :
    (fromResponse status headers err).status = status := by
  unfold fromResponse
  split_ifs <;> simp_all [mkAPIError]

theorem classifyThrown_ne_api (timeoutMs : Nat) (name msg : String)
    (a : APIErrorData) : classifyThrown timeoutMs name msg ≠ .api a := by
  unfold classifyThrown
  split_ifs <;> simp

/-- Every `APIError` surfaced by one attempt is a `fromResponse` image. -/
theorem makeRequestM_api_inv (timeoutMs : Nat) (ab : Bool) (out : FetchOut)
    (a : APIErrorData) (h : makeRequestM timeoutMs ab out = .error (.api a)) :
    ∃ s hd d, a = fromResponse s hd d := by
  cases ab with
  | true => simp [makeRequestM] at h
  | false =>
      cases out with
      | reject n m =>
          simp only [makeRequestM, Bool.false_eq_true, if_false] at h
          exact absurd (Except.error.inj h) (classifyThrown_ne_api _ _ _ _)
      | resp status headers body =>
          cases body with
          | threw n m =>
              simp only [makeRequestM, Bool.false_eq_true, if_false] at h
              exact absurd (Except.error.inj h) (classifyThrown_ne_api _ _ _ _)
          | notJson =>
              simp only [makeRequestM, Bool.false_eq_true, if_false] at h
              split at h
              · exact ⟨_, _, _, (PCError.api.inj (Except.error.inj h)).symm⟩
              · simp at h
          | decoded j =>
              simp only [makeRequestM, Bool.false_eq_true, if_false] at h
              split at h
              · exact ⟨_, _, _, (PCError.api.inj (Except.error.inj h)).symm⟩
              · split at h <;> simp at h

theorem requestFrom_ok (net : Nat → FetchOut) (rand : Nat → ℚ)
    (timeoutMs : Nat) (ab : Bool) (attempt remaining : Nat)
    (v : Option Json) (h : makeRequestM timeoutMs ab (net attempt) = .ok v) :
    requestFrom net rand timeoutMs ab attempt remaining =
      ⟨.ok v, 1, if ab then 0 else 1, []⟩ := by
  unfold requestFrom
  rw [h]

theorem requestFrom_stop (net : Nat → FetchOut) (rand : Nat → ℚ)
    (timeoutMs : Nat) (ab : Bool) (attempt remaining : Nat) (e : PCError)
    (h : makeRequestM timeoutMs ab (net attempt) = .error e)
    (ht : isTerminal4xx e = true) :
    requestFrom net rand timeoutMs ab attempt remaining =
      ⟨.error e, 1, if ab then 0 else 1, []⟩ := by
  unfold requestFrom
  rw [h]
  simp [ht]

theorem requestFrom_exhausted (net : Nat → FetchOut) (rand : Nat → ℚ)
    (timeoutMs : Nat) (ab : Bool) (attempt : Nat) (e : PCError)
    (h : makeRequestM timeoutMs ab (net attempt) = .error e)
    (ht : isTerminal4xx e = false) :
    requestFrom net rand timeoutMs ab attempt 0 =
      ⟨.error e, 1, if ab then 0 else 1, []⟩ := by
  unfold requestFrom
  rw [h]
  simp [ht]

theorem requestFrom_retry (net : Nat → FetchOut) (rand : Nat → ℚ)
    (timeoutMs : Nat) (ab : Bool) (attempt r : Nat) (e : PCError)
    (h : makeRequestM timeoutMs ab (net attempt) = .error e)
    (ht : isTerminal4xx e = false) :
    requestFrom net rand timeoutMs ab attempt (r + 1) =
      ⟨(requestFrom net rand timeoutMs ab (attempt + 1) r).result,
       (requestFrom net rand timeoutMs ab (attempt + 1) r).attempts + 1,
       (requestFrom net rand timeoutMs ab (attempt + 1) r).physical +
         (if ab then 0 else 1),
       calculateBackoff attempt e (rand attempt) ::
         (requestFrom net rand timeoutMs ab (attempt + 1) r).slept⟩ := by
  conv_lhs => rw [requestFrom]
  rw [h]
  simp [ht]

/-! ## Claim C1 -/

/-- C1: (1) when the first attempt fails with a classified HTTP error whose
status is 4xx and not 429, the loop performs exactly one attempt whatever
the configured budget, surfaces precisely that error, and its class-name
discriminant agrees with the §7 status table; (2) for every error of a
retryable kind (HTTP 429, HTTP 5xx, timeout, transport failure) on the
first attempt followed by a success on the second, exactly two physical
attempts occur and the surfaced result is the success payload, provided at
least one retry of budget remains. -/
theorem c1_retry_policy (net : Nat → FetchOut) (rand : Nat → ℚ)
    (timeoutMs maxRetries : Nat) :
    (∀ a, makeRequestM timeoutMs false (net 0) = .error (.api a) →
        400 ≤ a.status → a.status < 500 → a.status ≠ 429 →
        (requestM net rand timeoutMs false maxRetries).attempts = 1 ∧
        (requestM net rand timeoutMs false maxRetries).physical = 1 ∧
        (requestM net rand timeoutMs false maxRetries).result =
          .error (.api a) ∧
        a.name = specKindName a.status) ∧
    (∀ e v, makeRequestM timeoutMs false (net 0) = .error e →
        retryableKind e →
        makeRequestM timeoutMs false (net 1) = .ok v →
        1 ≤ maxRetries →
        (requestM net rand timeoutMs false maxRetries).attempts = 2 ∧
        (requestM net rand timeoutMs false maxRetries).physical = 2 ∧
        (requestM net rand timeoutMs false maxRetries).result = .ok v) := by
  constructor
  · intro a h h400 h500 h429
    have hterm : isTerminal4xx (.api a) = true := by
      simp only [isTerminal4xx, Bool.and_eq_true, decide_eq_true_eq,
        bne_iff_ne, ne_eq]
      exact ⟨⟨h400, h500⟩, h429⟩
    have := requestFrom_stop net rand timeoutMs false 0 maxRetries _ h hterm
    unfold requestM
    rw [this]
    refine ⟨rfl, rfl, rfl, ?_⟩
    obtain ⟨s, hd, d, rfl⟩ := makeRequestM_api_inv _ _ _ _ h
    rw [fromResponse_name, fromResponse_status]
  · intro e v h hr hok hbudget
    have hterm : isTerminal4xx e = false := by
      rcases hr with ⟨a, rfl, ha⟩ | ⟨m, rfl⟩ | ⟨m, rfl⟩
      · rcases ha with ha | ha
        · simp [isTerminal4xx, ha]
        · have hlt : ¬ (a.status < 500) := by omega
          simp [isTerminal4xx, hlt]
      · rfl
      · rfl
    obtain ⟨r, rfl⟩ : ∃ r, maxRetries = r + 1 :=
      ⟨maxRetries - 1, by omega⟩
    unfold requestM
    rw [requestFrom_retry net rand timeoutMs false 0 r e h hterm,
      requestFrom_ok net rand timeoutMs false 1 r v hok]
    exact ⟨rfl, rfl, rfl⟩

/-- Witness for C1 at concrete inputs: a 404 response is surfaced after one
attempt as `NotFoundError` (matching the table), and a 503 followed by a
success yields two attempts returning the payload. -/
theorem c1_retry_policy_witness :
    ((requestM (fun _ => .resp 404 [] .notJson) (fun _ => 0) 30000 false
        2).attempts = 1 ∧
      (requestM (fun _ => .resp 404 [] .notJson) (fun _ => 0) 30000 false
        2).physical = 1 ∧
      (requestM (fun _ => .resp 404 [] .notJson) (fun _ => 0) 30000 false
        2).result = .error (.api (fromResponse 404 [] none)) ∧
      (fromResponse 404 [] none).name =
        specKindName (fromResponse 404 [] none).status) ∧
    ((requestM (fun k => if k = 0 then .resp 503 [] .notJson
        else .resp 200 [] (.decoded (Json.str "ok"))) (fun _ => 0) 30000
        false 2).attempts = 2 ∧
      (requestM (fun k => if k = 0 then .resp 503 [] .notJson
        else .resp 200 [] (.decoded (Json.str "ok"))) (fun _ => 0) 30000
        false 2).physical = 2 ∧
      (requestM (fun k => if k = 0 then .resp 503 [] .notJson
        else .resp 200 [] (.decoded (Json.str "ok"))) (fun _ => 0) 30000
        false 2).result = .ok (some (Json.str "ok"))) :=
  ⟨by
    have h := (c1_retry_policy (fun _ => .resp 404 [] .notJson) (fun _ => 0)
      30000 2).1 (fromResponse 404 [] none) rfl (by decide) (by decide)
      (by decide)
    exact ⟨h.1, h.2.1, h.2.2.1, by rw [h.2.2.2, fromResponse_status]⟩,
   (c1_retry_policy (fun k => if k = 0 then .resp 503 [] .notJson
      else .resp 200 [] (.decoded (Json.str "ok"))) (fun _ => 0) 30000 2).2
     (.api (fromResponse 503 [] none)) (some (Json.str "ok")) rfl
     (Or.inl ⟨fromResponse 503 [] none, rfl, Or.inr (by decide)⟩) rfl
     (by decide)⟩

/-! ## Claim C2 -/

/-- C2 counterexample: a `retry-after: 0` header *is* a retry-after hint of
0 seconds carried by the preceding error (`retryAfter = some 0` on the
`RateLimitError`), but the truthiness test `if (retryAfter)` discards it:
the computed delay for the first retry is the exponential 1000 ms, not
`min(0*1000, 30000) = 0` as the claim requires. -/
theorem c2_counterexample :
    (fromResponse 429 [("retry-after", "0")] none).retryAfter = some 0 ∧
    calculateBackoff 0 (.api (fromResponse 429 [("retry-after", "0")] none))
      0 = 1000 ∧
    (1000 : ℚ) ≠ min ((0 : ℚ) * 1000) 30000 :=
  ⟨by decide, by
    have hra : (fromResponse 429 [("retry-after", "0")] none).retryAfter =
        some 0 := by decide
    unfold calculateBackoff
    dsimp only
    rw [hra]
    dsimp only
    norm_num [min_def], by norm_num⟩

/-- C2 amended: if the immediately preceding error carried a *nonzero*
retry-after hint of `h` seconds, the delay is exactly `min(h*1000, 30000)`
milliseconds; a hint of 0 is discarded by the truthiness test and falls
through to exponential backoff; without a usable hint the delay equals
`min(d, 30000)` for some `d` in the half-open interval
`[1000*2^k, 1300*2^k)` (zero-indexed retry `k`, `Math.random` draw in
`[0,1)`). -/
theorem c2_backoff (k : Nat) (e : PCError) (r : ℚ) (h0 : 0 ≤ r)
    (h1 : r < 1) :
    (∀ a hint, e = .api a → a.retryAfter = some hint → hint ≠ 0 →
        calculateBackoff k e r = min ((hint : ℚ) * 1000) 30000) ∧
    (usableHint e = none →
        ∃ d : ℚ, 1000 * 2 ^ k ≤ d ∧ d < 1300 * 2 ^ k ∧
          calculateBackoff k e r = min d 30000) := by
  constructor
  · rintro a hint rfl hra hnz
    unfold calculateBackoff
    dsimp only
    rw [hra]
    dsimp only
    rw [if_pos hnz]
  · intro hnone
    have hE : (0 : ℚ) < 1000 * 2 ^ k := by positivity
    refine ⟨1000 * 2 ^ k + r * (3 / 10) * (1000 * 2 ^ k), ?_, ?_, ?_⟩
    · nlinarith
    · nlinarith
    · unfold calculateBackoff
      cases e with
      | api a =>
          cases hra : a.retryAfter with
          | none => simp [hra]
          | some hint =>
              have : ¬ hint ≠ 0 := by
                intro hnz
                simp [usableHint, hra, hnz] at hnone
              simp [hra, this]
      | timeout m => rfl
      | connection m => rfl
      | raw n m => rfl

/-- Witness for C2 amended: a nonzero hint of 7 s gives exactly 7000 ms,
and with no hint at retry index 0 and draw 0 the delay is 1000 ms, inside
`[1000, 1300)`. -/
theorem c2_backoff_witness :
    calculateBackoff 0 (.api (fromResponse 429 [("retry-after", "7")] none))
        (1 / 2) = min ((7 : ℚ) * 1000) 30000 ∧
    ∃ d : ℚ, 1000 * 2 ^ 0 ≤ d ∧ d < 1300 * 2 ^ 0 ∧
      calculateBackoff 0 (.timeout "t") 0 = min d 30000 :=
  ⟨(c2_backoff 0 (.api (fromResponse 429 [("retry-after", "7")] none))
      (1 / 2) (by norm_num) (by norm_num)).1
      (fromResponse 429 [("retry-after", "7")] none) 7 rfl (by decide)
      (by decide),
   (c2_backoff 0 (.timeout "t") 0 (by norm_num) (by norm_num)).2 rfl⟩

/-! ## Claim C7 -/

/-- C7 counterexample: with the caller's signal fired *before any attempt*
(`callerAborted = true`) and one retry of budget, the executor still sleeps
one backoff delay and issues a second `fetch` invocation — the loop has no
cancellation check before sleeping, so a fired signal does not make it
"abort immediately without sleeping or retrying" as the claim states (each
attempt does abort without a physical network call, and is classified as a
timeout). -/
theorem c7_counterexample :
    (requestM (fun _ => .reject "AbortError" "") (fun _ => 0) 30000 true
      1).attempts = 2 ∧
    (requestM (fun _ => .reject "AbortError" "") (fun _ => 0) 30000 true
      1).slept.length = 1 ∧
    (requestM (fun _ => .reject "AbortError" "") (fun _ => 0) 30000 true
      1).physical = 0 :=
  ⟨rfl, rfl, rfl⟩

/-- C7 amended: when the combined cancellation signal has already fired
(caller signal or timeout, first-to-fire, never resetting), every `fetch`
invocation rejects on the aborted signal without any physical network call
(0 physical calls — in particular a signal fired before any attempt begins
prevents any physical call), and each abort is classified as a timeout; but
the executor does *not* check cancellation before sleeping: it sleeps one
backoff delay per remaining budget unit and re-invokes `fetch` until the
budget is exhausted, then surfaces the timeout error. -/
theorem c7_cancellation (net : Nat → FetchOut) (rand : Nat → ℚ)
    (timeoutMs maxRetries : Nat) :
    (requestM net rand timeoutMs true maxRetries).physical = 0 ∧
    (requestM net rand timeoutMs true maxRetries).result =
      .error (.timeout
        ("Request timed out after " ++ toString timeoutMs ++ "ms")) ∧
    (requestM net rand timeoutMs true maxRetries).attempts = maxRetries + 1 ∧
    (requestM net rand timeoutMs true maxRetries).slept.length =
      maxRetries := by
  suffices h : ∀ remaining attempt,
      (requestFrom net rand timeoutMs true attempt remaining).physical = 0 ∧
      (requestFrom net rand timeoutMs true attempt remaining).result =
        .error (.timeout
          ("Request timed out after " ++ toString timeoutMs ++ "ms")) ∧
      (requestFrom net rand timeoutMs true attempt remaining).attempts =
        remaining + 1 ∧
      (requestFrom net rand timeoutMs true attempt remaining).slept.length =
        remaining by
    exact h maxRetries 0
  intro remaining
  induction remaining with
  | zero =>
      intro attempt
      rw [requestFrom_exhausted net rand timeoutMs true attempt _ rfl rfl]
      exact ⟨rfl, rfl, rfl, rfl⟩
  | succ r ih =>
      intro attempt
      rw [requestFrom_retry net rand timeoutMs true attempt r _ rfl rfl]
      obtain ⟨hp, hres, hat, hsl⟩ := ih (attempt + 1)
      refine ⟨?_, hres, ?_, ?_⟩
      · simp [hp]
      · simp [hat]
      · simp [hsl]

/-! ## Claim C8 -/

/-- C8 counterexample: a 200 response whose JSON body fails to decode makes
`response.json()` throw a `SyntaxError`; the catch block matches neither the
`AbortError` name nor a `fetch`/`network` message, so the raw unclassified
error is rethrown and surfaced to the caller — refuting "every failure path
produces exactly one classified error … never surfaces a raw unclassified
error". -/
theorem c8_counterexample :
    (requestM (fun _ => .resp 200 []
        (.threw "SyntaxError" "Unexpected token u in JSON at position 0"))
      (fun _ => 0) 30000 false 0).result =
      .error (.raw "SyntaxError" "Unexpected token u in JSON at position 0") :=
  rfl

theorem classifyThrown_shape (timeoutMs : Nat) (name msg : String) :
    classifyThrown timeoutMs name msg =
        .timeout ("Request timed out after " ++ toString timeoutMs ++ "ms") ∨
      classifyThrown timeoutMs name msg = .connection msg ∨
      (classifyThrown timeoutMs name msg = .raw name msg ∧
        name ≠ "AbortError" ∧ hasSub "fetch" msg = false ∧
        hasSub "network" msg = false) := by
  unfold classifyThrown
  split_ifs with h1 h2
  · exact Or.inl rfl
  · exact Or.inr (Or.inl rfl)
  · push_neg at h2
    exact Or.inr (Or.inr ⟨rfl, h1,
      Bool.not_eq_true _ ▸ h2.1, Bool.not_eq_true _ ▸ h2.2⟩)

/-- Every error one attempt can produce is either classified — an HTTP-kind
`APIError`, a `TimeoutError`, or a `ConnectionError` — or is a raw error
rethrown by the final catch-all, which happens exactly when its name is not
`AbortError` and its message contains neither `fetch` nor `network`. -/
theorem makeRequestM_error_shape (timeoutMs : Nat) (ab : Bool)
    (out : FetchOut) (e : PCError)
    (h : makeRequestM timeoutMs ab out = .error e) :
    (∃ a, e = .api a) ∨ (∃ m, e = .timeout m) ∨ (∃ m, e = .connection m) ∨
      (∃ n m, e = .raw n m ∧ n ≠ "AbortError" ∧ hasSub "fetch" m = false ∧
        hasSub "network" m = false) := by
  cases ab with
  | true =>
      simp only [makeRequestM, if_pos rfl] at h
      exact Or.inr (Or.inl ⟨_, (Except.error.inj h).symm⟩)
  | false =>
      have shape : ∀ n m, e = classifyThrown timeoutMs n m →
          (∃ a, e = .api a) ∨ (∃ m, e = .timeout m) ∨
          (∃ m, e = .connection m) ∨ (∃ n m, e = .raw n m ∧
            n ≠ "AbortError" ∧ hasSub "fetch" m = false ∧
            hasSub "network" m = false) := by
        rintro n m rfl
        rcases classifyThrown_shape timeoutMs n m with hc | hc | ⟨hc, hn, hf, hw⟩
        · exact Or.inr (Or.inl ⟨_, hc⟩)
        · exact Or.inr (Or.inr (Or.inl ⟨_, hc⟩))
        · exact Or.inr (Or.inr (Or.inr ⟨n, m, hc, hn, hf, hw⟩))
      cases out with
      | reject n m =>
          simp only [makeRequestM, Bool.false_eq_true, if_false] at h
          exact shape n m (Except.error.inj h).symm
      | resp status headers body =>
          cases body with
          | threw n m =>
              simp only [makeRequestM, Bool.false_eq_true, if_false] at h
              exact shape n m (Except.error.inj h).symm
          | notJson =>
              simp only [makeRequestM, Bool.false_eq_true, if_false] at h
              split at h
              · exact Or.inl ⟨_, (Except.error.inj h).symm⟩
              · simp at h
          | decoded j =>
              simp only [makeRequestM, Bool.false_eq_true, if_false] at h
              split at h
              · exact Or.inl ⟨_, (Except.error.inj h).symm⟩
              · split at h <;> simp at h

theorem requestFrom_attempts_pos (net : Nat → FetchOut) (rand : Nat → ℚ)
    (timeoutMs : Nat) (ab : Bool) (attempt remaining : Nat) :
    1 ≤ (requestFrom net rand timeoutMs ab attempt remaining).attempts := by
  cases hm : makeRequestM timeoutMs ab (net attempt) with
  | ok v =>
      rw [requestFrom_ok net rand timeoutMs ab attempt remaining v hm]
  | error e =>
      cases ht : isTerminal4xx e with
      | true =>
          rw [requestFrom_stop net rand timeoutMs ab attempt remaining e hm ht]
      | false =>
          cases remaining with
          | zero =>
              rw [requestFrom_exhausted net rand timeoutMs ab attempt e hm ht]
          | succ r =>
              rw [requestFrom_retry net rand timeoutMs ab attempt r e hm ht]
              exact Nat.le_add_left 1 _

/-- The error surfaced by the loop is exactly the error classified on the
final attempt — never wrapped or replaced. -/
theorem requestFrom_last_error (net : Nat → FetchOut) (rand : Nat → ℚ)
    (timeoutMs : Nat) (ab : Bool) :
    ∀ remaining attempt e,
      (requestFrom net rand timeoutMs ab attempt remaining).result =
        .error e →
      makeRequestM timeoutMs ab (net (attempt +
        (requestFrom net rand timeoutMs ab attempt remaining).attempts - 1)) =
        .error e := by
  intro remaining
  induction remaining with
  | zero =>
      intro attempt e h
      cases hm : makeRequestM timeoutMs ab (net attempt) with
      | ok v =>
          rw [requestFrom_ok net rand timeoutMs ab attempt 0 v hm] at h
          cases h
      | error e0 =>
          cases ht : isTerminal4xx e0 with
          | true =>
              rw [requestFrom_stop net rand timeoutMs ab attempt 0 e0 hm ht]
                at h ⊢
              cases h
              simpa using hm
          | false =>
              rw [requestFrom_exhausted net rand timeoutMs ab attempt e0 hm
                ht] at h ⊢
              cases h
              simpa using hm
  | succ r ih =>
      intro attempt e h
      cases hm : makeRequestM timeoutMs ab (net attempt) with
      | ok v =>
          rw [requestFrom_ok net rand timeoutMs ab attempt (r + 1) v hm] at h
          cases h
      | error e0 =>
          cases ht : isTerminal4xx e0 with
          | true =>
              rw [requestFrom_stop net rand timeoutMs ab attempt (r + 1) e0
                hm ht] at h ⊢
              cases h
              simpa using hm
          | false =>
              rw [requestFrom_retry net rand timeoutMs ab attempt r e0 hm ht]
                at h ⊢
              have hpos := requestFrom_attempts_pos net rand timeoutMs ab
                (attempt + 1) r
              have := ih (attempt + 1) e h
              have harith : attempt +
                  ((requestFrom net rand timeoutMs ab (attempt + 1)
                    r).attempts + 1) - 1 =
                  attempt + 1 + (requestFrom net rand timeoutMs ab
                    (attempt + 1) r).attempts - 1 := by omega
              rw [harith]
              exact this

/-- C8 amended: every failure path yields exactly one error, which is a
classified `APIError`/`TimeoutError`/`ConnectionError` *except* that a
thrown error whose name is not `AbortError` and whose message contains
neither `fetch` nor `network` (e.g. a response-body JSON `SyntaxError`) is
rethrown unclassified; and once the budget is exhausted or the error is
terminal, the error instance classified on the final attempt is returned to
the caller unmodified — never wrapped or replaced. -/
theorem c8_error_propagation (net : Nat → FetchOut) (rand : Nat → ℚ)
    (timeoutMs maxRetries : Nat) (e : PCError) :
    (∀ out, makeRequestM timeoutMs false out = .error e →
        (∃ a, e = .api a) ∨ (∃ m, e = .timeout m) ∨
        (∃ m, e = .connection m) ∨ (∃ n m, e = .raw n m ∧
          n ≠ "AbortError" ∧ hasSub "fetch" m = false ∧
          hasSub "network" m = false)) ∧
    ((requestM net rand timeoutMs false maxRetries).result = .error e →
      makeRequestM timeoutMs false
        (net ((requestM net rand timeoutMs false maxRetries).attempts - 1)) =
        .error e) := by
  constructor
  · intro out h
    exact makeRequestM_error_shape timeoutMs false out e h
  · intro h
    have := requestFrom_last_error net rand timeoutMs false maxRetries 0 e h
    simpa using this

/-- Witness for C8 amended: the `SyntaxError` raw rethrow satisfies the
shape disjunction, and with budget 1 and two failing attempts (503 then
404) the surfaced error is exactly the 404 classified on the final
attempt. -/
theorem c8_error_propagation_witness :
    ((∃ a, PCError.raw "SyntaxError" "Unexpected token" = .api a) ∨
      (∃ m, PCError.raw "SyntaxError" "Unexpected token" = .timeout m) ∨
      (∃ m, PCError.raw "SyntaxError" "Unexpected token" = .connection m) ∨
      (∃ n m, PCError.raw "SyntaxError" "Unexpected token" = .raw n m ∧
        n ≠ "AbortError" ∧ hasSub "fetch" m = false ∧
        hasSub "network" m = false)) ∧
    makeRequestM 30000 false
      ((fun k => if k = 0 then FetchOut.resp 503 [] .notJson
        else FetchOut.resp 404 [] .notJson)
        ((requestM (fun k => if k = 0 then FetchOut.resp 503 [] .notJson
          else FetchOut.resp 404 [] .notJson) (fun _ => 0) 30000 false
          1).attempts - 1)) =
      .error (.api (fromResponse 404 [] none)) :=
  ⟨(c8_error_propagation (fun _ => FetchOut.resp 200 []
      (.threw "SyntaxError" "Unexpected token")) (fun _ => 0) 30000 0
      (.raw "SyntaxError" "Unexpected token")).1
      (.resp 200 [] (.threw "SyntaxError" "Unexpected token")) rfl,
   (c8_error_propagation (fun k => if k = 0 then FetchOut.resp 503 []
      .notJson else FetchOut.resp 404 [] .notJson) (fun _ => 0) 30000 1
      (.api (fromResponse 404 [] none))).2 rfl⟩

/-! ## Claim C9 -/

/-- C9 counterexample: the physical URL is built with WHATWG resolution
(`new URL(path, baseURL)`), not by concatenation — for the default base
endpoint `https://paycoinpro.com/api/v1` and the path `/invoices` (as every
resource wrapper passes it), the base endpoint's `/api/v1` path segment is
dropped, so the result is not the claimed concatenation with one separating
slash. -/
theorem c9_counterexample :
    buildURL defaultBaseURL "/invoices" [] = "https://paycoinpro.com/invoices" ∧
    buildURL defaultBaseURL "/invoices" [] ≠
      "https://paycoinpro.com/api/v1/invoices" :=
  ⟨rfl, by decide⟩

theorem ssetGo_fresh (acc : List (String × String)) (k v : String)
    (h : ∀ p ∈ acc, p.1 ≠ k) : ssetGo acc k v = acc ++ [(k, v)] := by
  induction acc with
  | nil => rfl
  | cons p rest ih =>
      have hp : p.1 ≠ k := h p (List.mem_cons_self p rest)
      have hrest : ∀ q ∈ rest, q.1 ≠ k :=
        fun q hq => h q (List.mem_cons_of_mem p hq)
      cases p with
      | mk k0 v0 =>
          simp only [ssetGo, if_neg hp, ih hrest, List.cons_append]

theorem foldl_append_items (items : List String) (k : String)
    (acc : List (String × String)) :
    items.foldl (fun a it => a ++ [(k, it)]) acc =
      acc ++ items.map (fun it => (k, it)) := by
  induction items generalizing acc with
  | nil => simp
  | cons it rest ih =>
      simp only [List.foldl_cons, List.map_cons, ih]
      simp

/-- One step of `buildURL`'s parameter loop appends exactly the expansion of
the entry when its key is fresh in the accumulator. -/
theorem buildQuery_step_fresh (acc : List (String × String))
    (kv : String × QueryVal) (h : ∀ p ∈ acc, p.1 ≠ kv.1) :
    (match kv.2 with
      | .undef => acc
      | .nullV => acc
      | .date iso => ssetGo acc kv.1 iso
      | .list items => items.foldl (fun a it => a ++ [(kv.1, it)]) acc
      | .scalar s => ssetGo acc kv.1 s) = acc ++ expandQuery kv := by
  cases kv with
  | mk k val =>
      cases val with
      | undef => simp [expandQuery]
      | nullV => simp [expandQuery]
      | date iso => simpa [expandQuery] using ssetGo_fresh acc k iso h
      | list items => simpa [expandQuery] using foldl_append_items items k acc
      | scalar s => simpa [expandQuery] using ssetGo_fresh acc k s h

theorem buildQuery_go (params : List (String × QueryVal))
    (acc : List (String × String))
    (hfresh : ∀ kv ∈ params, ∀ p ∈ acc, p.1 ≠ kv.1)
    (hnd : (params.map Prod.fst).Nodup) :
    params.foldl (fun acc kv =>
      match kv.2 with
      | .undef => acc
      | .nullV => acc
      | .date iso => ssetGo acc kv.1 iso
      | .list items => items.foldl (fun a it => a ++ [(kv.1, it)]) acc
      | .scalar s => ssetGo acc kv.1 s) acc =
      acc ++ params.flatMap expandQuery := by
  induction params generalizing acc with
  | nil => simp
  | cons kv rest ih =>
      simp only [List.map_cons, List.nodup_cons] at hnd
      have hstep := buildQuery_step_fresh acc kv
        (fun p hp => hfresh kv (List.mem_cons_self kv rest) p hp)
      simp only [List.foldl_cons, hstep]
      rw [ih (acc ++ expandQuery kv) ?_ hnd.2]
      · simp [List.flatMap_cons, List.append_assoc]
      · intro kv2 hkv2 p hp
        rcases List.mem_append.mp hp with hp | hp
        · exact hfresh kv2 (List.mem_cons_of_mem kv hkv2) p hp
        · have hkey : p.1 = kv.1 := by
            cases kv with
            | mk k val =>
                cases val with
                | undef => simp [expandQuery] at hp
                | nullV => simp [expandQuery] at hp
                | date iso =>
                    simp only [expandQuery, List.mem_singleton] at hp
                    simp [hp]
                | list items =>
                    simp only [expandQuery, List.mem_map] at hp
                    obtain ⟨it, _, rfl⟩ := hp
                    rfl
                | scalar s =>
                    simp only [expandQuery, List.mem_singleton] at hp
                    simp [hp]
          rw [hkey]
          intro hcontra
          exact hnd.1 (hcontra ▸ List.mem_map_of_mem Prod.fst hkv2)

/-- C9 amended: the physical URL is the WHATWG resolution of the path
against the base endpoint — an absolute path replaces the base's entire
path and a relative path replaces its last segment, so the base endpoint's
path segment is *not* preserved — followed by the query parameters; for a
parameter map with pairwise-distinct keys the query list is exactly the
in-order expansion: `null`/absent values omitted, date values as their
ISO-8601 string, list values one repeated entry per element in list order,
scalars one entry. -/
theorem c9_build_url (base : BaseURL) (path : String)
    (params : List (String × QueryVal)) :
    buildURL base path params =
      renderURL base.scheme base.host
        (if startsWithSlash path then splitSegs path
         else base.pathSegs.dropLast ++ splitSegs path)
        (buildQuery params) ∧
    ((params.map Prod.fst).Nodup →
      buildQuery params = params.flatMap expandQuery) := by
  constructor
  · rfl
  · intro hnd
    unfold buildQuery
    simpa using buildQuery_go params [] (by simp) hnd

/-- Witness for C9 amended at concrete inputs: `limit`/`status` scalars
both appear, an array produces two in-order `tags` entries, a `null` entry
is omitted, and a date serializes to its ISO string. -/
theorem c9_build_url_witness :
    buildURL defaultBaseURL "/payments"
        [("limit", .scalar "10"), ("status", .scalar "completed"),
         ("skip", .nullV), ("tags", .list ["a", "b"]),
         ("since", .date "2024-01-15T10:30:00.000Z")] =
      renderURL "https" "paycoinpro.com" ["payments"]
        [("limit", "10"), ("status", "completed"), ("tags", "a"),
         ("tags", "b"), ("since", "2024-01-15T10:30:00.000Z")] := by
  have h := c9_build_url defaultBaseURL "/payments"
    [("limit", .scalar "10"), ("status", .scalar "completed"),
     ("skip", .nullV), ("tags", .list ["a", "b"]),
     ("since", .date "2024-01-15T10:30:00.000Z")]
  rw [h.1, h.2 (by decide)]
  rfl

end PayCoinPro
